import Mathlib

set_option maxHeartbeats 1000000

/-!
Verification of the signature grammar, value codec, method proxy, bus name
supervisor and property mirror of netidx-dbus (`src/main.rs`), as a shallow
embedding in Lean.  Rust enums become inductives, the parser and codec become
executable functions, and the async control flow of the property mirror and
supervisor loop becomes explicit step functions over event traces.  External
library behaviour (netidx casts, dbus string validation) is modelled from the
specification where noted.
-/

/-- Alias for the string type carried by netidx values (netidx `Chars`). -/
abbrev Chars := String

/-- The D-Bus signature type grammar: Rust `enum DbusType`, main.rs 268-289.
Recursive tagged tree with leaves for the fixed-width types and containers
for arrays, structs and dict entries. -/
inductive DbusType where
  | Byte
  | Bool
  | Int16
  | UInt16
  | Int32
  | UInt32
  | Int64
  | UInt64
  | Double
  | UnixFd
  | String
  | ObjectPath
  | Signature
  | Variant
  | Array (elt : DbusType)
  | Struct (elts : List DbusType)
  | Dict (key : DbusType) (value : DbusType)

mutual

/-- Canonical printed form of a signature type: `impl Display for DbusType`,
main.rs 299-327.  Leaves print one character, `Array` prints `a` then its
element, `Dict` prints braces around key and value, `Struct` prints parens
around the concatenation of its elements. -/
def DbusType.print : DbusType → Chars
  | .Byte => "y"
  | .Bool => "b"
  | .Int16 => "n"
  | .UInt16 => "q"
  | .Int32 => "i"
  | .UInt32 => "u"
  | .Int64 => "x"
  | .UInt64 => "t"
  | .Double => "d"
  | .String => "s"
  | .ObjectPath => "o"
  | .Signature => "g"
  | .Array elt => "a" ++ DbusType.print elt
  | .Dict key value => "\x7b" ++ DbusType.print key ++ DbusType.print value ++ "\x7d"
  | .Struct elts => "(" ++ DbusType.printList elts ++ ")"
  | .Variant => "v"
  | .UnixFd => "h"

/-- Concatenation of printed element types: the `for t in inner` write loop in
the `Struct` arm of the Display impl. -/
def DbusType.printList : List DbusType → Chars
  | [] => ""
  | t :: ts => DbusType.print t ++ DbusType.printList ts

end

mutual

/-- Printed length of a signature type: `DbusType::len`, main.rs 379-399.
Leaves count 1, `Array` counts 1 plus its element, `Struct` and `Dict` count
2 (for the brackets) plus their contents. -/
def DbusType.len : DbusType → Nat
  | .Byte => 1
  | .Bool => 1
  | .Int16 => 1
  | .UInt16 => 1
  | .Int32 => 1
  | .UInt32 => 1
  | .Int64 => 1
  | .UInt64 => 1
  | .Double => 1
  | .String => 1
  | .ObjectPath => 1
  | .Signature => 1
  | .UnixFd => 1
  | .Variant => 1
  | .Array elt => 1 + DbusType.len elt
  | .Struct elts => 2 + DbusType.lenList elts
  | .Dict key value => 2 + DbusType.len key + DbusType.len value

/-- Sum of the printed lengths of a list of types: the
`elts.iter().map(Self::len).sum()` in the `Struct` arm of `DbusType::len`. -/
def DbusType.lenList : List DbusType → Nat
  | [] => 0
  | t :: ts => DbusType.len t + DbusType.lenList ts

end

mutual

/-- Fuel-indexed signature parser: `DbusType::from_bytes`, main.rs 330-377.
The input is the byte slice as a list of characters; patterns mirror the Rust
slice patterns, in particular the dict and struct arms require the opening
bracket to be the first byte and the closing bracket to be the LAST byte of
the current slice (`[b'\x7b', s @ .., b'\x7d']` / `[b'(', s @ .., b')']`).
The fuel argument only forces termination; `DbusType.from_bytes` below
supplies `2 * length + 1` fuel, which the recursion can never exhaust, so the
fuel-out branch is unreachable on actual calls.  The Rust slice patterns
dispatch on the first byte; they are transcribed as equality tests on the
leading character (each arm's body is the arm of the Rust match), with the
dict and struct arms additionally demanding — exactly like the slice
patterns `[b'\x7b', s @ .., b'\x7d']` and `[b'(', s @ .., b')']` — that the
closing bracket be the LAST byte of the current slice. -/
def DbusType.from_bytesF : Nat → List Char → Except Chars DbusType
  | 0, _ => .error "invalid dbus type"
  | _ + 1, [] => .error "expected at least 1 character"
  | fuel + 1, ch :: tail =>
    if ch = 'y' then .ok .Byte
    else if ch = 'b' then .ok .Bool
    else if ch = 'n' then .ok .Int16
    else if ch = 'q' then .ok .UInt16
    else if ch = 'i' then .ok .Int32
    else if ch = 'u' then .ok .UInt32
    else if ch = 'x' then .ok .Int64
    else if ch = 't' then .ok .UInt64
    else if ch = 'd' then .ok .Double
    else if ch = 's' then .ok .String
    else if ch = 'o' then .ok .ObjectPath
    else if ch = 'g' then .ok .Signature
    else if ch = 'v' then .ok .Variant
    else if ch = 'h' then .ok .UnixFd
    else if ch = 'a' then
      match DbusType.from_bytesF fuel tail with
      | .error e => .error e
      | .ok t => .ok (.Array t)
    else if ch = '\x7b' then
      if tail.getLast? = some '\x7d' then
        let s := tail.dropLast
        if s.length = 0 then .error "empty dict"
        else
          match DbusType.from_bytesF fuel s with
          | .error e => .error e
          | .ok key =>
            match DbusType.from_bytesF fuel (s.drop key.len) with
            | .error e => .error e
            | .ok value =>
              if ((s.drop key.len).drop value.len).isEmpty then .ok (.Dict key value)
              else .error "dict must contain exactly two types"
      else .error "invalid dbus type"
    else if ch = '(' then
      if tail.getLast? = some ')' then
        let s := tail.dropLast
        if s.length = 0 then .error "empty struct type"
        else
          match DbusType.parseElemsF fuel s with
          | .error e => .error e
          | .ok elts => .ok (.Struct elts)
      else .error "invalid dbus type"
    else .error "invalid dbus type"

/-- The `while !s.is_empty()` element loop in the struct arm of
`DbusType::from_bytes`: parse one element from the front, advance the slice
by the element's `len`, and repeat until the slice is empty. -/
def DbusType.parseElemsF : Nat → List Char → Except Chars (List DbusType)
  | 0, _ => .error "invalid dbus type"
  | fuel + 1, s =>
    if s.isEmpty then .ok []
    else
      match DbusType.from_bytesF fuel s with
      | .error e => .error e
      | .ok elt =>
        match DbusType.parseElemsF fuel (s.drop elt.len) with
        | .error e => .error e
        | .ok elts => .ok (elt :: elts)

end

/-- `DbusType::from_bytes` entry point.  Each recursion step strips at least
one character per two fuel units, so `2 * length + 1` fuel always suffices. -/
def DbusType.from_bytes (b : List Char) : Except Chars DbusType :=
  DbusType.from_bytesF (2 * b.length + 1) b

/-- `impl FromStr for DbusType`, main.rs 291-297: parse the string's bytes. -/
def DbusType.from_str (s : Chars) : Except Chars DbusType :=
  DbusType.from_bytes s.data

/-- The netidx pub/sub value lattice (`netidx::subscriber::Value`), reproduced
as external vocabulary.  Floating-point, byte-sequence, duration and
date-time payloads are opaque tokens (the bridge only moves them around and
never computes with them), so they are represented by `Nat` identifiers. -/
inductive Value where
  | U32 (n : Nat)
  | V32 (n : Nat)
  | I32 (i : Int)
  | Z32 (i : Int)
  | U64 (n : Nat)
  | V64 (n : Nat)
  | I64 (i : Int)
  | Z64 (i : Int)
  | F32 (x : Nat)
  | F64 (x : Nat)
  | DateTime (t : Nat)
  | Duration (d : Nat)
  | String (s : Chars)
  | Bytes (b : Nat)
  | True
  | False
  | Null
  | Ok
  | Error (e : Chars)
  | Array (elts : List Value)

/-- A decoded D-Bus argument as the bridge sees it through `dbus::arg::RefArg`
(`arg_type()` dispatch plus the `as_u64 / as_i64 / as_f64 / as_str / as_iter`
accessors).  Byte and integer payloads carry their mathematical value;
`Double` and `UnixFd` payloads are opaque tokens.  A `Variant`'s `as_iter`
yields a list of inner values (the dbus library exposes the variant's content
as an iterator), likewise `Array`, `DictEntry` and `Struct`. -/
inductive DbusValue where
  | Byte (n : Nat)
  | Boolean (b : Bool)
  | Int16 (i : Int)
  | UInt16 (n : Nat)
  | Int32 (i : Int)
  | UInt32 (n : Nat)
  | Int64 (i : Int)
  | UInt64 (n : Nat)
  | Double (x : Nat)
  | UnixFd (fd : Nat)
  | Invalid
  | Str (s : Chars)
  | ObjectPath (s : Chars)
  | Signature (s : Chars)
  | Variant (vs : List DbusValue)
  | Array (vs : List DbusValue)
  | DictEntry (vs : List DbusValue)
  | Struct (vs : List DbusValue)

/-- Rust `as u32` applied to an unsigned 64-bit quantity: truncate modulo 2^32. -/
def toU32 (n : Nat) : Nat := n % 4294967296

/-- Rust `as i32` applied to a signed 64-bit quantity: two's-complement
truncation to 32 bits. -/
def toI32 (i : Int) : Int := (i + 2147483648) % 4294967296 - 2147483648

mutual

/-- The bus-to-pub/sub half of the value codec: `dbus_value_to_netidx_value`,
main.rs 118-155.  Narrow unsigneds widen to `U32`, narrow signeds to `I32`
(through the `as_u64 as u32` / `as_i64 as i32` casts), a `UnixFd` becomes the
literal string `"<unix-fd>"`, a `Boolean` maps through `as_i64() == 1`, and a
`Variant` unwraps: no inner value gives `Null`, one gives that value, two or
more give an array in iterator order.  `Array`, `DictEntry` and `Struct`
collect their members into an array. -/
def dbus_value_to_netidx_value : DbusValue → Value
  | .Byte n => .U32 (toU32 n)
  | .Int16 i => .I32 (toI32 i)
  | .UInt16 n => .U32 (toU32 n)
  | .Int32 i => .I32 (toI32 i)
  | .UInt32 n => .U32 (toU32 n)
  | .Int64 i => .I64 i
  | .UInt64 n => .U64 n
  | .Double x => .F64 x
  | .UnixFd _ => .String "<unix-fd>"
  | .Boolean b => if (if b then (1 : Int) else 0) = 1 then .True else .False
  | .Invalid => .Error "invalid"
  | .Str s => .String s
  | .ObjectPath s => .String s
  | .Signature s => .String s
  | .Variant vs =>
    match vs with
    | [] => .Null
    | [v0] => dbus_value_to_netidx_value v0
    | v0 :: v1 :: rest => .Array (dbus_values_to_netidx_values (v0 :: v1 :: rest))
  | .Array vs => .Array (dbus_values_to_netidx_values vs)
  | .DictEntry vs => .Array (dbus_values_to_netidx_values vs)
  | .Struct vs => .Array (dbus_values_to_netidx_values vs)

/-- Element-wise conversion of an iterator's values, preserving order (the
`map(|v| dbus_value_to_netidx_value(&v)).collect()` calls). -/
def dbus_values_to_netidx_values : List DbusValue → List Value
  | [] => []
  | v :: vs => dbus_value_to_netidx_value v :: dbus_values_to_netidx_values vs

end

/-- A D-Bus message body item (`dbus::arg::messageitem::MessageItem`) as built
by the encoder.  `Array` and `Dict` carry the element signature strings their
constructors receive. -/
inductive MessageItem where
  | Bool (b : Bool)
  | Byte (n : Nat)
  | Int16 (i : Int)
  | UInt16 (n : Nat)
  | Int32 (i : Int)
  | UInt32 (n : Nat)
  | Int64 (i : Int)
  | UInt64 (n : Nat)
  | Double (x : Nat)
  | Signature (s : Chars)
  | ObjectPath (s : Chars)
  | Str (s : Chars)
  | Array (elts : List MessageItem) (sig : Chars)
  | Dict (elts : List (MessageItem × MessageItem)) (ksig : Chars) (vsig : Chars)
  | Struct (elts : List MessageItem)
  | Variant (v : MessageItem)

/-- Modelled from the spec: the external netidx `Value::cast_to::<bool>`
(booleans are width-cast; a failed coercion is an `InvalidArgument` error). -/
def castToBool : Value → Except Chars Bool
  | .True => .ok true
  | .False => .ok false
  | _ => .error "cannot cast to bool"

/-- Modelled from the spec: the external netidx numeric casts
`cast_to::<u8> / <u16> / <u32> / <u64>`; a same-width unsigned value casts to
itself when in range, anything else fails with a coercion error. -/
def castToUnsigned (bound : Nat) : Value → Except Chars Nat
  | .U32 n => if n < bound then .ok n else .error "out of range"
  | .V32 n => if n < bound then .ok n else .error "out of range"
  | .U64 n => if n < bound then .ok n else .error "out of range"
  | .V64 n => if n < bound then .ok n else .error "out of range"
  | _ => .error "cannot cast to unsigned"

/-- Modelled from the spec: the external netidx signed casts
`cast_to::<i16> / <i32> / <i64>`; a signed value casts to itself when in
range, anything else fails with a coercion error. -/
def castToSigned (bound : Int) : Value → Except Chars Int
  | .I32 i => if -bound ≤ i ∧ i < bound then .ok i else .error "out of range"
  | .Z32 i => if -bound ≤ i ∧ i < bound then .ok i else .error "out of range"
  | .I64 i => if -bound ≤ i ∧ i < bound then .ok i else .error "out of range"
  | .Z64 i => if -bound ≤ i ∧ i < bound then .ok i else .error "out of range"
  | _ => .error "cannot cast to signed"

/-- Modelled from the spec: the external netidx `cast_to::<f64>`; float
payloads are opaque tokens here, so only a float casts to a double. -/
def castToF64 : Value → Except Chars Nat
  | .F64 x => .ok x
  | .F32 x => .ok x
  | _ => .error "cannot cast to float"

/-- Modelled from the spec: the external netidx `cast_to::<String>`
(string-convertible values map to strings). -/
def castToString : Value → Except Chars Chars
  | .String s => .ok s
  | _ => .error "cannot cast to string"

/-- Modelled from the spec: the external netidx `cast_to::<Vec<Value>>`; an
array yields its elements, anything else fails to coerce. -/
def castToVecValue : Value → Except Chars (List Value)
  | .Array vs => .ok vs
  | _ => .error "cannot cast to array"

/-- Modelled from the spec: the external netidx `cast_to::<Vec<(Value, Value)>>`
used for dict targets; an array of two-element arrays yields the pairs,
anything else fails to coerce. -/
def castToVecPairs : Value → Except Chars (List (Value × Value))
  | .Array vs => vs.mapM fun e =>
      match e with
      | .Array [a, b] => .ok (a, b)
      | _ => .error "cannot cast to pair"
  | _ => .error "cannot cast to array of pairs"

/-- Modelled from the spec: the external `dbus::strings::Signature::new`
lexical validation; printed signatures of well-formed types are accepted and
returned unchanged. -/
def Strings.Signature.new (s : Chars) : Except Chars Chars := .ok s

/-- Modelled from the spec: the external `dbus::strings::Path::new` object
path validation, accepting the validated string. -/
def Strings.Path.new (s : Chars) : Except Chars Chars := .ok s

/-- Modelled from the spec: the external `MessageItemArray::new` constructor,
which pairs the elements with their signature (its signature-consistency
check never fires on the encoder's outputs). -/
def MessageItemArray.new (elts : List MessageItem) (sig : Chars) :
    Except Chars (List MessageItem × Chars) := .ok (elts, sig)

/-- Modelled from the spec: the external `MessageItemDict::new` constructor. -/
def MessageItemDict.new (elts : List (MessageItem × MessageItem))
    (ksig vsig : Chars) :
    Except Chars (List (MessageItem × MessageItem) × Chars × Chars) :=
  .ok (elts, ksig, vsig)

/-- Modelled from the spec: netidx `Value::to_string_naked`, the canonical
textual rendering of a value without its type tag; only the `Duration` and
`DateTime` cases are reachable from the encoder. -/
def Value.to_string_naked : Value → Chars
  | .Duration d => "duration:" ++ toString d
  | .DateTime t => "datetime:" ++ toString t
  | _ => ""

/-- Rust `f32 as f64`: exact widening; on opaque float tokens the payload is
carried through unchanged. -/
def f32_to_f64 (x : Nat) : Nat := x

mutual

/-- Fuel-indexed pub/sub-to-bus encoder: `netidx_value_to_dbus_value`,
main.rs 157-266.  The match is on the target signature type, exactly as in
the source: leaves coerce the value through the netidx casts, `UnixFd`
always fails, `Array` / `Dict` / `Struct` cast the value to a list and
recurse (`Struct` zips the elements with the field types and then checks
the element count), and `Variant` infers the inner bus type from the shape
of the pub/sub value, rejecting byte sequences.  Fuel only forces
termination; the entry point below supplies more than the recursion can
consume. -/
def encF : Nat → Value → DbusType → Except Chars MessageItem
  | 0, _, _ => .error "fuel exhausted"
  | _ + 1, v, .Bool =>
    match castToBool v with
    | .error e => .error e
    | .ok b => .ok (.Bool b)
  | _ + 1, v, .Byte =>
    match castToUnsigned 256 v with
    | .error e => .error e
    | .ok n => .ok (.Byte n)
  | _ + 1, v, .Int16 =>
    match castToSigned 32768 v with
    | .error e => .error e
    | .ok i => .ok (.Int16 i)
  | _ + 1, v, .UInt16 =>
    match castToUnsigned 65536 v with
    | .error e => .error e
    | .ok n => .ok (.UInt16 n)
  | _ + 1, v, .Int32 =>
    match castToSigned 2147483648 v with
    | .error e => .error e
    | .ok i => .ok (.Int32 i)
  | _ + 1, v, .UInt32 =>
    match castToUnsigned 4294967296 v with
    | .error e => .error e
    | .ok n => .ok (.UInt32 n)
  | _ + 1, v, .Int64 =>
    match castToSigned 9223372036854775808 v with
    | .error e => .error e
    | .ok i => .ok (.Int64 i)
  | _ + 1, v, .UInt64 =>
    match castToUnsigned 18446744073709551616 v with
    | .error e => .error e
    | .ok n => .ok (.UInt64 n)
  | _ + 1, v, .Double =>
    match castToF64 v with
    | .error e => .error e
    | .ok x => .ok (.Double x)
  | _ + 1, v, .Signature =>
    match castToString v with
    | .error e => .error e
    | .ok s =>
      match Strings.Signature.new s with
      | .error e => .error ("invalid signature " ++ e)
      | .ok sg => .ok (.Signature sg)
  | _ + 1, v, .ObjectPath =>
    match castToString v with
    | .error e => .error e
    | .ok s =>
      match Strings.Path.new s with
      | .error e => .error ("invalid object path " ++ e)
      | .ok p => .ok (.ObjectPath p)
  | _ + 1, v, .String =>
    match castToString v with
    | .error e => .error e
    | .ok s => .ok (.Str s)
  | _ + 1, _, .UnixFd => .error "can\x27t send unix fds over netidx"
  | fuel + 1, v, .Array t =>
    match castToVecValue v with
    | .error e => .error e
    | .ok vs =>
      match encListF fuel vs t with
      | .error e => .error e
      | .ok elts =>
        match Strings.Signature.new (DbusType.print (.Array t)) with
        | .error e => .error ("invalid array signature " ++ e)
        | .ok sig =>
          match MessageItemArray.new elts sig with
          | .error e => .error e
          | .ok (elts', sig') => .ok (.Array elts' sig')
  | fuel + 1, v, .Dict key value =>
    match castToVecPairs v with
    | .error e => .error e
    | .ok pairs =>
      match encPairsF fuel pairs key value with
      | .error e => .error e
      | .ok elts =>
        match Strings.Signature.new (DbusType.print key) with
        | .error e => .error ("invalid dict key signature " ++ e)
        | .ok ksig =>
          match Strings.Signature.new (DbusType.print value) with
          | .error e => .error ("invalid dict value signature " ++ e)
          | .ok vsig =>
            match MessageItemDict.new elts ksig vsig with
            | .error e => .error e
            | .ok (elts', ksig', vsig') => .ok (.Dict elts' ksig' vsig')
  | fuel + 1, v, .Struct inner =>
    match castToVecValue v with
    | .error e => .error e
    | .ok vs =>
      match encZipF fuel vs inner with
      | .error e => .error e
      | .ok elts =>
        if elts.length ≠ inner.length then
          .error ("struct elements mismatch expected " ++ toString inner.length
            ++ " found " ++ toString elts.length)
        else .ok (.Struct elts)
  | fuel + 1, v, .Variant =>
    match v with
    | .I32 i => .ok (.Variant (.Int32 i))
    | .Z32 i => .ok (.Variant (.Int32 i))
    | .U32 n => .ok (.Variant (.UInt32 n))
    | .V32 n => .ok (.Variant (.UInt32 n))
    | .I64 i => .ok (.Variant (.Int64 i))
    | .Z64 i => .ok (.Variant (.Int64 i))
    | .U64 n => .ok (.Variant (.UInt64 n))
    | .V64 n => .ok (.Variant (.UInt64 n))
    | .F32 x => .ok (.Variant (.Double (f32_to_f64 x)))
    | .F64 x => .ok (.Variant (.Double x))
    | .True => .ok (.Variant (.Bool true))
    | .Ok => .ok (.Variant (.Bool true))
    | .False => .ok (.Variant (.Bool false))
    | .Error _ => .ok (.Variant (.Bool false))
    | .Null => .ok (.Variant (.Bool false))
    | .String s => .ok (.Variant (.Str s))
    | .Bytes _ => .error "can\x27t send raw bytes to dbus"
    | .Duration d => .ok (.Variant (.Str (Value.to_string_naked (.Duration d))))
    | .DateTime t => .ok (.Variant (.Str (Value.to_string_naked (.DateTime t))))
    | .Array a =>
      match encListF fuel a .Variant with
      | .error e => .error e
      | .ok elts =>
        match Strings.Signature.new "av" with
        | .error e => .error ("invalid sig " ++ e)
        | .ok sig =>
          match MessageItemArray.new elts sig with
          | .error e => .error ("invalid array " ++ e)
          | .ok (elts', sig') => .ok (.Variant (.Array elts' sig'))

/-- Element-wise encoding of an array's members against one element type
(the `map(|v| netidx_value_to_dbus_value(&v, &*t)).collect::<Result<_>>()`
calls), short-circuiting on the first error. -/
def encListF : Nat → List Value → DbusType → Except Chars (List MessageItem)
  | 0, _, _ => .error "fuel exhausted"
  | _ + 1, [], _ => .ok []
  | fuel + 1, v :: vs, t =>
    match encF fuel v t with
    | .error e => .error e
    | .ok m =>
      match encListF fuel vs t with
      | .error e => .error e
      | .ok ms => .ok (m :: ms)

/-- Position-wise encoding of an array's members against a struct's field
types: the `.zip(inner.iter())` in the `Struct` arm, which stops at the
shorter of the two lists, short-circuiting on the first error. -/
def encZipF : Nat → List Value → List DbusType → Except Chars (List MessageItem)
  | 0, _, _ => .error "fuel exhausted"
  | _ + 1, _, [] => .ok []
  | _ + 1, [], _ :: _ => .ok []
  | fuel + 1, v :: vs, t :: ts =>
    match encF fuel v t with
    | .error e => .error e
    | .ok m =>
      match encZipF fuel vs ts with
      | .error e => .error e
      | .ok ms => .ok (m :: ms)

/-- Pair-wise encoding of dict entries against the key and value types (the
`map(|(k, v)| ...)` in the `Dict` arm), short-circuiting on the first
error. -/
def encPairsF : Nat → List (Value × Value) → DbusType → DbusType →
    Except Chars (List (MessageItem × MessageItem))
  | 0, _, _, _ => .error "fuel exhausted"
  | _ + 1, [], _, _ => .ok []
  | fuel + 1, (a, b) :: ps, key, value =>
    match encF fuel a key with
    | .error e => .error e
    | .ok mk =>
      match encF fuel b value with
      | .error e => .error e
      | .ok mv =>
        match encPairsF fuel ps key value with
        | .error e => .error e
        | .ok ms => .ok ((mk, mv) :: ms)

end

mutual

/-- Structural size of a pub/sub value, used only to supply fuel to the
encoder: every constructor and list cell counts one. -/
def Value.size : Value → Nat
  | .Array vs => 1 + Value.sizeList vs
  | _ => 1

/-- Structural size of a list of pub/sub values. -/
def Value.sizeList : List Value → Nat
  | [] => 1
  | v :: vs => 1 + Value.size v + Value.sizeList vs

end

/-- `netidx_value_to_dbus_value` entry point.  Every recursion step strips at
least one constructor from the value or the type, so `Value.size v +
DbusType.len typ` fuel is never exhausted. -/
def netidx_value_to_dbus_value (v : Value) (typ : DbusType) :
    Except Chars MessageItem :=
  encF (Value.size v + DbusType.len typ + 1) v typ

/-- An in-argument specification as the handler closure sees it: Rust
`DbusMethodArgSpec` (main.rs 408-412) after the naming pass of
`ProxiedMethod::new`, which guarantees every in-arg has a unique name (the
`a.name.as_ref().unwrap()` in `DbusMethodArgs::new` never panics), so the
name is carried directly. -/
structure ArgSpec where
  name : Chars
  typ : DbusType

/-- `HashMap::remove` on the handler's argument map, modelled on an
association list: return the removed entry's values and the map without it,
or `none` when the key is absent. -/
def removeEntry (k : Chars) : List (Chars × List Value) →
    Option (List Value × List (Chars × List Value))
  | [] => none
  | (k', vs) :: rest =>
    if k' = k then some (vs, rest)
    else
      match removeEntry k rest with
      | none => none
      | some (vs', rest') => some (vs', (k', vs) :: rest')

/-- The argument-extraction iterator of `DbusMethodArgs::new` (main.rs
446-456): for each in-arg spec in order, remove its name from the value map
(`anyhow!("missing argument")` when absent), `Vec::pop` the last supplied
value (`anyhow!("empty argument")` when the vector is empty), and encode it
against the declared type; the first error short-circuits the collect.  The
map is threaded through because the Rust closure mutates it in place. -/
def extractArgs : List ArgSpec → List (Chars × List Value) →
    Except Chars (List MessageItem) × List (Chars × List Value)
  | [], vals => (.ok [], vals)
  | a :: rest, vals =>
    match removeEntry a.name vals with
    | none => (.error "missing argument", vals)
    | some (vs, vals') =>
      match vs.getLast? with
      | none => (.error "empty argument", vals')
      | some v =>
        match netidx_value_to_dbus_value v a.typ with
        | .error e => (.error e, vals')
        | .ok item =>
          match extractArgs rest vals' with
          | (.ok items, vals'') => (.ok (item :: items), vals'')
          | (.error e, vals'') => (.error e, vals'')

/-- `DbusMethodArgs::new`, main.rs 441-464: run the extraction iterator and
then compare the assembled count against the spec count (`bail!("arity
mismatch, ...")`; on the success path the counts always agree, so this check
is dead code, kept for fidelity).  Returns the result together with the
mutated argument map. -/
def DbusMethodArgs.new (sig : List ArgSpec) (vals : List (Chars × List Value)) :
    Except Chars (List MessageItem) × List (Chars × List Value) :=
  match extractArgs sig vals with
  | (.error e, vals') => (.error e, vals')
  | (.ok elts, vals') =>
    if sig.length ≠ elts.length then
      (.error ("arity mismatch, expected " ++ toString sig.length
        ++ " received " ++ toString elts.length), vals')
    else (.ok elts, vals')

/-- The rpc handler closure registered by `ProxiedMethod::new` (main.rs
575-598): build the dbus args; on failure answer with the error value
`"failed to construct dbus args: <cause>"`; on success — after only logging a
warning when extra caller-supplied entries remain in the map — perform the
bus method call, abstracted as the oracle `call` (which covers both the
decoded reply and the `"method call failed: ..."` error value). -/
def proxiedMethodHandler (call : List MessageItem → Value)
    (arg_spec : List ArgSpec) (args : List (Chars × List Value)) : Value :=
  match DbusMethodArgs.new arg_spec args with
  | (.error e, _) => .Error ("failed to construct dbus args: " ++ e)
  | (.ok dargs, _remaining) => call dargs

/-- `or_none` from the `NameOwnerChanged` reader (main.rs 109): an empty
owner string decodes to `none`. -/
def or_none (s : Chars) : Option Chars :=
  if s.isEmpty then none else some s

/-- A signal as seen by the supervisor loop: either a `NameOwnerChanged`
message carrying its raw string triple, or any other message (no member,
another member, or an unreadable body), which the loop ignores. -/
inductive BusSignal where
  | nameOwnerChanged (name old_owner new_owner : Chars)
  | other

/-- One iteration of the supervisor's signal loop (main.rs 904-931): decode
the `NameOwnerChanged` triple through `or_none`; when the new owner is
absent drop the proxied name; when the old owner is absent and the name is
not a unique name (leading `:`), start proxying it and insert it if that
succeeds (`proxyOk` models whether `start_proxying` returned a handle);
otherwise leave the map unchanged.  The map is modelled by its key list. -/
def superviseStep (proxyOk : Chars → Bool) (names : List Chars) :
    BusSignal → List Chars
  | .other => names
  | .nameOwnerChanged name old_owner new_owner =>
    if (or_none new_owner).isNone then
      names.filter (fun k => k != name)
    else if (or_none old_owner).isNone && !(name.startsWith ":") then
      if proxyOk name then name :: names.filter (fun k => k != name)
      else names
    else names

/-- The supervisor's startup set (main.rs 875-903): `ListNames` filtered to
names that do not start with `:`, kept when `start_proxying` succeeds. -/
def initialNames (proxyOk : Chars → Bool) (allNames : List Chars) : List Chars :=
  (allNames.filter (fun n => !(n.startsWith ":"))).filter proxyOk

/-- The supervisor after processing a trace of signals: fold the loop body
over the signal stream starting from the startup set. -/
def runSupervisor (proxyOk : Chars → Bool) (allNames : List Chars)
    (sigs : List BusSignal) : List Chars :=
  sigs.foldl (superviseStep proxyOk) (initialNames proxyOk allNames)

/-- Readiness state of one iteration of the property mirror's steady-state
loop (main.rs 699-732): whether a property-change event is ready on the
signal stream, whether the cancellation one-shot has fired, whether the
change stream has terminated (so the select completes), and whether the
`publisher.publish(...)?` inside the change branch would fail this
iteration (the only fallible operation of the branch). -/
structure IterState where
  changeReady : Bool
  stopFired : Bool
  streamDone : Bool
  publishFails : Bool
  deriving DecidableEq

/-- Which arm of the `select_biased!` runs. -/
inductive SelectedBranch where
  | change
  | stop
  | complete
  | blocked
  deriving DecidableEq

/-- The `select_biased!` of `Object::publish_properties` (main.rs 701-730):
`select_biased!` polls its futures in the order they are written, and the
source lists the change-stream branch FIRST (line 702), the cancellation
branch second (line 722) and `complete` last, so a ready change wins any
tie. -/
def selectBranch (s : IterState) : SelectedBranch :=
  if s.changeReady then .change
  else if s.stopFired then .stop
  else if s.streamDone then .complete
  else .blocked

/-- Outcome of the mirror loop: `clean b` is the `Ok(())` return reached by
`break` (with `b` recording whether `cleanup()` — the `remove_match` call —
ran), `failed b` is the `Err` return propagated by the `?` on a failed
publish, and `pending` means the trace ended with the loop still running. -/
inductive MirrorExit where
  | clean (cleanupCalled : Bool)
  | failed (cleanupCalled : Bool)
  | pending
  deriving DecidableEq

/-- The mirror's steady-state loop over a trace of iteration states (main.rs
699-734).  A ready change runs the change branch: if its publish fails the
`?` returns the error immediately — without running `cleanup()` — otherwise
the loop commits the batch and continues.  The stop and complete branches
run `cleanup()` (`remove_match`) and then break out to the `Ok(())`
return. -/
def runMirror : List IterState → MirrorExit
  | [] => .pending
  | s :: rest =>
    match selectBranch s with
    | .change => if s.publishFails then .failed false else runMirror rest
    | .stop => .clean true
    | .complete => .clean true
    | .blocked => runMirror rest

/-- Per-exit bookkeeping for the mirror: a clean exit must have run
`cleanup()`, the error return never does, a still-running mirror is
unconstrained. -/
def exitCleanup : MirrorExit → Bool
  | .clean b => b
  | .failed b => !b
  | .pending => true

/-- C10: for every signature type `t`, `DbusType::len(t)` equals the
character length of `t`'s canonical printed form, so the parser's
`s = &s[elt.len()..]` advance after a struct or dict element skips exactly
the element's printed length. -/
theorem c10_len_eq_printed_length (t : DbusType) :
    DbusType.len t = (DbusType.print t).length :=
  @DbusType.rec (fun u => DbusType.len u = (DbusType.print u).length)
    (fun ts => DbusType.lenList ts = (DbusType.printList ts).length)
    rfl rfl rfl rfl rfl rfl rfl rfl rfl rfl rfl rfl rfl rfl
    (fun elt ih => by
      have h1 : "a".length = 1 := rfl
      simp only [DbusType.len, DbusType.print, String.length_append, ih, h1]
      try omega)
    (fun elts ih => by
      have h1 : "(".length = 1 := rfl
      have h2 : ")".length = 1 := rfl
      simp only [DbusType.len, DbusType.print, String.length_append, ih, h1, h2]
      try omega)
    (fun key value ihk ihv => by
      have h1 : "\x7b".length = 1 := rfl
      have h2 : "\x7d".length = 1 := rfl
      simp only [DbusType.len, DbusType.print, String.length_append, ihk, ihv, h1, h2]
      try omega)
    rfl
    (fun hd tl ih1 ih2 => by
      simp only [DbusType.lenList, DbusType.printList, String.length_append, ih1, ih2])
    t

/-- C1 (code bug): the round-trip law fails.  The canonical printed form of
`Struct(Struct(Int32), Int32)` is `"((i)i)"`, yet `from_str` rejects that
very string, because the struct arm of `from_bytes` requires the closing
paren to be the last byte of the whole remaining slice, which fails for any
struct or dict in non-final position; so neither `print (parse s) = s` nor
`parse (print T) = T` holds at this input. -/
theorem c1_roundtrip_fails_on_nested_struct :
    DbusType.print (.Struct [.Struct [.Int32], .Int32]) = "((i)i)"
    ∧ DbusType.from_str "((i)i)" = .error "invalid dbus type" :=
  ⟨rfl, rfl⟩

/-- C2 (counterexample): the claim that parsing fails on any string with a
character outside the leaf/container alphabet, or with trailing garbage
after a single complete type, is false: `from_str` parses only a prefix and
ignores the rest, so `"s!"` (containing `!`, outside the alphabet) and
`"ss"` (trailing garbage after a complete type) both succeed as `String`. -/
theorem c2_counterexample_trailing_chars_accepted :
    DbusType.from_str "s!" = .ok .String
    ∧ (DbusType.from_str "s!").isOk = true
    ∧ DbusType.from_str "ss" = .ok .String :=
  ⟨rfl, rfl, rfl⟩

/-- C2 (amended): parsing fails on the empty string, the empty struct
`"()"`, the malformed dicts `"{"`, `"{s}"`, `"{sss}"`, the bare array
constructors `"a"` and `"aa"`, and on any string whose first character is
outside the leaf/container alphabet; trailing characters after a complete
leading type are NOT rejected (see the counterexample). -/
theorem c2_parse_failures :
    DbusType.from_str "" = .error "expected at least 1 character"
    ∧ DbusType.from_str "()" = .error "empty struct type"
    ∧ DbusType.from_str "\x7b" = .error "invalid dbus type"
    ∧ DbusType.from_str "\x7bs\x7d" = .error "expected at least 1 character"
    ∧ DbusType.from_str "\x7bsss\x7d" = .error "dict must contain exactly two types"
    ∧ DbusType.from_str "a" = .error "expected at least 1 character"
    ∧ DbusType.from_str "aa" = .error "expected at least 1 character"
    ∧ (∀ (c : Char) (rest : List Char),
        c ∉ ['y', 'b', 'n', 'q', 'i', 'u', 'x', 't', 'd', 's', 'o', 'g', 'v',
             'h', 'a', '\x7b', '('] →
        DbusType.from_bytes (c :: rest) = .error "invalid dbus type") := by
  refine ⟨rfl, rfl, rfl, rfl, rfl, rfl, rfl, ?_⟩
  intro c rest hc
  simp only [List.mem_cons, not_or] at hc
  unfold DbusType.from_bytes
  simp only [List.length_cons]
  unfold DbusType.from_bytesF
  simp only [if_neg hc.1, if_neg hc.2.1, if_neg hc.2.2.1, if_neg hc.2.2.2.1,
    if_neg hc.2.2.2.2.1, if_neg hc.2.2.2.2.2.1, if_neg hc.2.2.2.2.2.2.1,
    if_neg hc.2.2.2.2.2.2.2.1, if_neg hc.2.2.2.2.2.2.2.2.1,
    if_neg hc.2.2.2.2.2.2.2.2.2.1, if_neg hc.2.2.2.2.2.2.2.2.2.2.1,
    if_neg hc.2.2.2.2.2.2.2.2.2.2.2.1, if_neg hc.2.2.2.2.2.2.2.2.2.2.2.2.1,
    if_neg hc.2.2.2.2.2.2.2.2.2.2.2.2.2.1,
    if_neg hc.2.2.2.2.2.2.2.2.2.2.2.2.2.2.1,
    if_neg hc.2.2.2.2.2.2.2.2.2.2.2.2.2.2.2.1,
    if_neg hc.2.2.2.2.2.2.2.2.2.2.2.2.2.2.2.2.1]

/-- C2 witness: a concrete invalid leading character. -/
theorem c2_parse_failures_witness :
    DbusType.from_bytes ['!'] = .error "invalid dbus type" :=
  c2_parse_failures.2.2.2.2.2.2.2 '!' [] (by decide)

/-- C3: the bus-to-pub/sub decoding follows the declared mapping: bytes and
16-bit unsigneds widen to `u32`, 16- and 32-bit signeds to `i32`, 32-bit
unsigneds stay `u32`, 64-bit integers keep their width, doubles stay `f64`,
a unix fd becomes the literal string `"<unix-fd>"`, and a variant unwraps:
no inner value gives `null`, one gives that value decoded, two or more give
the array of decoded values in order. -/
theorem c3_dbus_to_netidx_mapping :
    (∀ n : Nat, n < 256 → dbus_value_to_netidx_value (.Byte n) = .U32 n)
    ∧ (∀ n : Nat, n < 65536 → dbus_value_to_netidx_value (.UInt16 n) = .U32 n)
    ∧ (∀ i : Int, -32768 ≤ i → i < 32768 →
        dbus_value_to_netidx_value (.Int16 i) = .I32 i)
    ∧ (∀ i : Int, -2147483648 ≤ i → i < 2147483648 →
        dbus_value_to_netidx_value (.Int32 i) = .I32 i)
    ∧ (∀ n : Nat, n < 4294967296 →
        dbus_value_to_netidx_value (.UInt32 n) = .U32 n)
    ∧ (∀ i : Int, dbus_value_to_netidx_value (.Int64 i) = .I64 i)
    ∧ (∀ n : Nat, dbus_value_to_netidx_value (.UInt64 n) = .U64 n)
    ∧ (∀ x : Nat, dbus_value_to_netidx_value (.Double x) = .F64 x)
    ∧ (∀ fd : Nat, dbus_value_to_netidx_value (.UnixFd fd) = .String "<unix-fd>")
    ∧ dbus_value_to_netidx_value (.Variant []) = .Null
    ∧ (∀ v, dbus_value_to_netidx_value (.Variant [v]) = dbus_value_to_netidx_value v)
    ∧ (∀ v0 v1 rest, dbus_value_to_netidx_value (.Variant (v0 :: v1 :: rest))
        = .Array (dbus_values_to_netidx_values (v0 :: v1 :: rest)))
    ∧ (∀ vs, dbus_values_to_netidx_values vs = vs.map dbus_value_to_netidx_value) := by
  refine ⟨?_, ?_, ?_, ?_, ?_, fun i => rfl, fun n => rfl, fun x => rfl,
    fun fd => rfl, rfl, fun v => rfl, fun v0 v1 rest => rfl, ?_⟩
  · intro n hn
    have h : toU32 n = n := Nat.mod_eq_of_lt (by omega)
    simp [dbus_value_to_netidx_value, h]
  · intro n hn
    have h : toU32 n = n := Nat.mod_eq_of_lt (by omega)
    simp [dbus_value_to_netidx_value, h]
  · intro i h1 h2
    have h : toI32 i = i := by unfold toI32; omega
    simp [dbus_value_to_netidx_value, h]
  · intro i h1 h2
    have h : toI32 i = i := by unfold toI32; omega
    simp [dbus_value_to_netidx_value, h]
  · intro n hn
    have h : toU32 n = n := Nat.mod_eq_of_lt (by omega)
    simp [dbus_value_to_netidx_value, h]
  · intro vs
    induction vs with
    | nil => rfl
    | cons v vs ih => simp [dbus_values_to_netidx_values, ih]

/-- C3 witness: the range hypotheses at concrete boundary values. -/
theorem c3_dbus_to_netidx_mapping_witness :
    dbus_value_to_netidx_value (.Byte 255) = .U32 255
    ∧ dbus_value_to_netidx_value (.UInt16 65535) = .U32 65535
    ∧ dbus_value_to_netidx_value (.Int16 (-1)) = .I32 (-1)
    ∧ dbus_value_to_netidx_value (.Int32 (-2147483648)) = .I32 (-2147483648)
    ∧ dbus_value_to_netidx_value (.UInt32 4294967295) = .U32 4294967295 :=
  ⟨c3_dbus_to_netidx_mapping.1 255 (by norm_num),
   c3_dbus_to_netidx_mapping.2.1 65535 (by norm_num),
   c3_dbus_to_netidx_mapping.2.2.1 (-1) (by norm_num) (by norm_num),
   c3_dbus_to_netidx_mapping.2.2.2.1 (-2147483648) (by norm_num) (by norm_num),
   c3_dbus_to_netidx_mapping.2.2.2.2.1 4294967295 (by norm_num)⟩

/-- C4: the pub/sub-to-bus encoder fails for every value when the target
type is `UnixFd`, and fails for a byte-sequence value when the target type
is `Variant`. -/
theorem c4_unixfd_and_bytes_variant_fail :
    (∀ v : Value, netidx_value_to_dbus_value v .UnixFd
        = .error "can\x27t send unix fds over netidx")
    ∧ (∀ b : Nat, netidx_value_to_dbus_value (.Bytes b) .Variant
        = .error "can\x27t send raw bytes to dbus") :=
  ⟨fun _ => rfl, fun _ => rfl⟩

/-- C5 (code bug): the struct arity check is defeated by `zip` truncation.
Encoding the three-element array `[2, 3, 4]` against `Struct(Int32, Int32)`
SUCCEEDS, silently dropping the extra element, because
`.zip(inner.iter())` truncates to the shorter list before the
`el != tl` comparison; only arrays with FEWER elements than fields fail
with the arity-mismatch error, contradicting the claim that any count
difference fails. -/
theorem c5_struct_arity_check_misses_overlong_arrays :
    netidx_value_to_dbus_value (.Array [.I32 2, .I32 3, .I32 4])
        (.Struct [.Int32, .Int32])
      = .ok (.Struct [.Int32 2, .Int32 3])
    ∧ netidx_value_to_dbus_value (.Array [.I32 2]) (.Struct [.Int32, .Int32])
      = .error "struct elements mismatch expected 2 found 1" :=
  ⟨rfl, rfl⟩

/-- Splitting the extraction iterator at an arbitrary position: running it on
a concatenated spec list runs the prefix first and then continues on the
mutated map, short-circuiting errors. -/
theorem extractArgs_append (pre rest : List ArgSpec)
    (vals : List (Chars × List Value)) :
    extractArgs (pre ++ rest) vals =
      match extractArgs pre vals with
      | (.error e, v') => (.error e, v')
      | (.ok items, v') =>
        match extractArgs rest v' with
        | (.ok items2, v'') => (.ok (items ++ items2), v'')
        | (.error e, v'') => (.error e, v'') := by
  induction pre generalizing vals with
  | nil =>
    simp only [List.nil_append, extractArgs]
    rcases h : extractArgs rest vals with ⟨r, v''⟩
    cases r <;> simp
  | cons a pre ih =>
    simp only [List.cons_append, extractArgs]
    cases h1 : removeEntry a.name vals with
    | none => rfl
    | some p =>
      rcases p with ⟨vs, vals'⟩
      dsimp only
      cases h2 : vs.getLast? with
      | none => rfl
      | some v =>
        dsimp only
        cases h3 : netidx_value_to_dbus_value v a.typ with
        | error e => rfl
        | ok item =>
          dsimp only
          simp only [List.append_eq]
          rw [ih]
          rcases h4 : extractArgs pre vals' with ⟨r4, v4⟩
          cases r4 with
          | error e4 => rfl
          | ok items4 =>
            rcases h5 : extractArgs rest v4 with ⟨r5, v5⟩
            cases r5 <;> dsimp only <;> simp_all

/-- Removing a key that is not the appended extra entry leaves the extra
entry in place at the end of the map. -/
theorem removeEntry_append (k n : Chars) (e : List Value)
    (l : List (Chars × List Value)) (h : n ≠ k) :
    removeEntry k (l ++ [(n, e)]) =
      match removeEntry k l with
      | none => none
      | some (vs, rest) => some (vs, rest ++ [(n, e)]) := by
  induction l with
  | nil => simp [removeEntry, h]
  | cons p l ih =>
    rcases p with ⟨k', vs'⟩
    simp only [List.cons_append, removeEntry]
    by_cases hk : k' = k
    · simp [hk]
    · simp only [if_neg hk, List.append_eq, ih]
      cases removeEntry k l with
      | none => rfl
      | some p2 => rcases p2 with ⟨a2, b2⟩; rfl

/-- An extra map entry whose name is declared by no in-arg spec is never
touched by the extraction iterator: the iterator's result is unchanged and
the entry survives in the leftover map. -/
theorem extractArgs_extra (sig : List ArgSpec) (vals : List (Chars × List Value))
    (n : Chars) (e : List Value) (h : n ∉ sig.map ArgSpec.name) :
    extractArgs sig (vals ++ [(n, e)])
      = ((extractArgs sig vals).1, (extractArgs sig vals).2 ++ [(n, e)]) := by
  induction sig generalizing vals with
  | nil => rfl
  | cons a sig ih =>
    simp only [List.map_cons, List.mem_cons, not_or] at h
    obtain ⟨hn, h⟩ := h
    simp only [extractArgs]
    rw [removeEntry_append a.name n e vals hn]
    cases h1 : removeEntry a.name vals with
    | none => rfl
    | some p =>
      rcases p with ⟨vs, vals'⟩
      dsimp only
      cases h2 : vs.getLast? with
      | none => rfl
      | some v =>
        dsimp only
        cases h3 : netidx_value_to_dbus_value v a.typ with
        | error e' => rfl
        | ok item =>
          dsimp only
          rw [ih vals' h]
          rcases h4 : extractArgs sig vals' with ⟨r, v2⟩
          cases r <;> rfl

/-- C6: proxied-method argument extraction.  When the first problem the
extraction iterator hits is an in-arg name absent from the supplied
arguments, the call answers with the error value
`"failed to construct dbus args: missing argument"`; when it is a present
name whose value sequence is empty, with
`"failed to construct dbus args: empty argument"`; and an extra supplied
argument not named by any in-arg changes nothing — the handler only logs a
warning and proceeds to the bus call with the same marshalled arguments. -/
theorem c6_method_arg_extraction :
    (∀ (pre : List ArgSpec) (a : ArgSpec) (post : List ArgSpec)
        (vals : List (Chars × List Value)) (items : List MessageItem)
        (vals' : List (Chars × List Value)) (call : List MessageItem → Value),
        extractArgs pre vals = (.ok items, vals') →
        removeEntry a.name vals' = none →
        proxiedMethodHandler call (pre ++ a :: post) vals
          = .Error "failed to construct dbus args: missing argument")
    ∧ (∀ (pre : List ArgSpec) (a : ArgSpec) (post : List ArgSpec)
        (vals : List (Chars × List Value)) (items : List MessageItem)
        (vals' vals'' : List (Chars × List Value)) (call : List MessageItem → Value),
        extractArgs pre vals = (.ok items, vals') →
        removeEntry a.name vals' = some ([], vals'') →
        proxiedMethodHandler call (pre ++ a :: post) vals
          = .Error "failed to construct dbus args: empty argument")
    ∧ (∀ (sig : List ArgSpec) (vals : List (Chars × List Value)) (n : Chars)
        (extra : List Value) (call : List MessageItem → Value),
        n ∉ sig.map ArgSpec.name →
        proxiedMethodHandler call sig (vals ++ [(n, extra)])
          = proxiedMethodHandler call sig vals) := by
  refine ⟨?_, ?_, ?_⟩
  · intro pre a post vals items vals' call h1 h2
    unfold proxiedMethodHandler DbusMethodArgs.new
    rw [extractArgs_append pre (a :: post) vals, h1]
    simp only [extractArgs, h2]
    rfl
  · intro pre a post vals items vals' vals'' call h1 h2
    unfold proxiedMethodHandler DbusMethodArgs.new
    rw [extractArgs_append pre (a :: post) vals, h1]
    simp only [extractArgs, h2, List.getLast?]
    rfl
  · intro sig vals n extra call h
    unfold proxiedMethodHandler DbusMethodArgs.new
    rw [extractArgs_extra sig vals n extra h]
    rcases hE : extractArgs sig vals with ⟨r, v2⟩
    cases r with
    | error e => rfl
    | ok items =>
      dsimp only
      by_cases hl : sig.length ≠ items.length
      · simp only [if_pos hl]
      · simp only [if_neg hl]

/-- C6 witness: the `Add(a, b)` scenario of the spec — calling with only `a`
supplied yields the missing-argument error value, an empty `a` yields the
empty-argument error value, and an extra `c` leaves the outcome unchanged. -/
theorem c6_method_arg_extraction_witness :
    proxiedMethodHandler (fun _ => .Null)
        [⟨"a", .Int32⟩, ⟨"b", .Int32⟩] [("a", [.I32 2])]
      = .Error "failed to construct dbus args: missing argument"
    ∧ proxiedMethodHandler (fun _ => .Null)
        [⟨"a", .Int32⟩] [("a", [])]
      = .Error "failed to construct dbus args: empty argument"
    ∧ proxiedMethodHandler (fun _ => .Null)
        [⟨"a", .Int32⟩] [("a", [.I32 2]), ("c", [.I32 4])]
      = proxiedMethodHandler (fun _ => .Null) [⟨"a", .Int32⟩] [("a", [.I32 2])] :=
  ⟨c6_method_arg_extraction.1 [⟨"a", .Int32⟩] ⟨"b", .Int32⟩ []
      [("a", [.I32 2])] [.Int32 2] [] (fun _ => .Null) rfl rfl,
   c6_method_arg_extraction.2.1 [] ⟨"a", .Int32⟩ [] [("a", [])] [] [("a", [])] []
      (fun _ => .Null) rfl rfl,
   c6_method_arg_extraction.2.2 [⟨"a", .Int32⟩] [("a", [.I32 2])] "c" [.I32 4]
      (fun _ => .Null) (by decide)⟩

/-- C7: no unique bus name is ever proxied.  The startup set filters out
names starting with `:`, and the `NameOwnerChanged` loop inserts a name only
under the guard `!name.starts_with(":")`, so after any trace of signals
every key of the supervisor's proxied-name map is a non-unique name. -/
theorem c7_no_unique_names_proxied (proxyOk : Chars → Bool)
    (allNames : List Chars) (sigs : List BusSignal) :
    (runSupervisor proxyOk allNames sigs).all (fun k => !(k.startsWith ":")) = true := by
  have hstep : ∀ (names : List Chars) (sig : BusSignal),
      names.all (fun k => !(k.startsWith ":")) = true →
      (superviseStep proxyOk names sig).all (fun k => !(k.startsWith ":")) = true := by
    intro names sig h
    cases sig with
    | other => exact h
    | nameOwnerChanged name old_owner new_owner =>
      by_cases h1 : (or_none new_owner).isNone
      · simp only [superviseStep, if_pos h1]
        rw [List.all_eq_true] at h ⊢
        exact fun k hk => h k (List.mem_of_mem_filter hk)
      · by_cases h2 : ((or_none old_owner).isNone && !(name.startsWith ":")) = true
        · simp only [superviseStep, if_neg h1, if_pos h2]
          by_cases h3 : proxyOk name = true
          · simp only [if_pos h3]
            rw [List.all_eq_true] at h ⊢
            intro k hk
            rcases List.mem_cons.mp hk with hk | hk'
            · subst hk
              exact (Bool.and_eq_true _ _).mp h2 |>.2
            · exact h k (List.mem_of_mem_filter hk')
          · simp only [if_neg h3]
            exact h
        · simp only [superviseStep, if_neg h1, if_neg h2]
          exact h
  have hinit : (initialNames proxyOk allNames).all (fun k => !(k.startsWith ":")) = true := by
    rw [List.all_eq_true]
    intro k hk
    unfold initialNames at hk
    have hm := List.mem_filter.mp hk
    have hm2 := List.mem_filter.mp hm.1
    exact hm2.2
  unfold runSupervisor
  generalize initialNames proxyOk allNames = init at hinit ⊢
  induction sigs generalizing init with
  | nil => exact hinit
  | cons sg sigs ih =>
    rw [List.foldl_cons]
    exact ih _ (hstep _ _ hinit)

/-- C8 (counterexample): on an iteration where both the cancellation signal
has fired and a change event is ready, the biased select takes the CHANGE
branch — the loop neither unsubscribes nor exits on that iteration —
because `select_biased!` polls the change stream first (main.rs 702),
contradicting the claimed cancellation-first ordering. -/
theorem c8_counterexample_tie_takes_change :
    selectBranch ⟨true, true, false, false⟩ = SelectedBranch.change
    ∧ runMirror [⟨true, true, false, false⟩] = MirrorExit.pending
    ∧ decide (selectBranch ⟨true, true, false, false⟩ = SelectedBranch.stop) = false := by
  decide

/-- C8 (amended): the bias is reversed with respect to the claim.  A ready
change always wins the select; the cancellation branch runs exactly when the
signal has fired and no change is ready, in which case the loop unsubscribes
and exits; and on a tie the loop simply continues with the remaining
trace. -/
theorem c8_change_branch_has_priority :
    (∀ s : IterState, s.changeReady = true → selectBranch s = .change)
    ∧ (∀ s : IterState, s.changeReady = false → s.stopFired = true →
        selectBranch s = .stop)
    ∧ (∀ (s : IterState) (rest : List IterState),
        s.changeReady = true → s.stopFired = true → s.publishFails = false →
        runMirror (s :: rest) = runMirror rest)
    ∧ (∀ (s : IterState) (rest : List IterState),
        s.changeReady = false → s.stopFired = true →
        runMirror (s :: rest) = MirrorExit.clean true) := by
  refine ⟨?_, ?_, ?_, ?_⟩
  · intro s h
    simp [selectBranch, h]
  · intro s h1 h2
    simp [selectBranch, h1, h2]
  · intro s rest h1 h2 h3
    simp [runMirror, selectBranch, h1, h3]
  · intro s rest h1 h2
    simp [runMirror, selectBranch, h1, h2]

/-- C8 witness: concrete iteration states for each clause of the amended
bias statement. -/
theorem c8_change_branch_has_priority_witness :
    selectBranch ⟨true, false, false, false⟩ = SelectedBranch.change
    ∧ selectBranch ⟨false, true, false, false⟩ = SelectedBranch.stop
    ∧ runMirror [⟨true, true, false, false⟩] = runMirror []
    ∧ runMirror [⟨false, true, false, false⟩] = MirrorExit.clean true :=
  ⟨c8_change_branch_has_priority.1 ⟨true, false, false, false⟩ rfl,
   c8_change_branch_has_priority.2.1 ⟨false, true, false, false⟩ rfl rfl,
   c8_change_branch_has_priority.2.2.1 ⟨true, true, false, false⟩ [] rfl rfl rfl,
   c8_change_branch_has_priority.2.2.2 ⟨false, true, false, false⟩ [] rfl rfl⟩

/-- C9 (counterexample): the mirror can exit WITHOUT removing its signal
match: when the publish inside the change branch fails, the `?` propagates
the error out of `publish_properties` immediately and `cleanup()` — the
`remove_match` call — never runs, contradicting the claim that every exit
after a successful match install removes the match. -/
theorem c9_counterexample_error_exit_skips_cleanup :
    runMirror [⟨true, false, false, true⟩] = MirrorExit.failed false
    ∧ decide (runMirror [⟨true, false, false, true⟩] = MirrorExit.failed true) = false := by
  decide

/-- C9 (amended): exits by cancellation or by change-stream completion always
run `cleanup()` (the `remove_match`) before returning, while the error
return from a failed publish inside the steady-state loop never does. -/
theorem c9_cleanup_on_clean_exits_only (trace : List IterState) :
    exitCleanup (runMirror trace) = true := by
  induction trace with
  | nil => rfl
  | cons s rest ih =>
    simp only [runMirror]
    cases hb : selectBranch s with
    | change =>
      by_cases hp : s.publishFails
      · simp [hp, exitCleanup]
      · simpa [hp] using ih
    | stop => rfl
    | complete => rfl
    | blocked => exact ih
